import Mathlib

/-!
Clapshot API server — verification of the spec against the code.

Shallow embedding of `clapshot_server/api_server.py` (the Socket.IO / HTTP
API server of the Clapshot video-annotation backend) together with the parts
of the storage collaborator (`clapshot_server/database.py`, absent from the
sources, modelled from the spec) that the handlers exercise.

Conventions:
* Python `dict`s keyed by strings are association lists with front-insert
  semantics (a new binding replaces the previous one for the same key).
* Bytes are `List Nat` (each entry < 256); machine words in SHA-256 are `Nat`
  with explicit reduction modulo `2^32`.
* A Socket.IO `emit` is a value of the `Emit` inductive; each handler is a
  pure function from server state and request to the new state and the list
  of emits it performed, in order.
* Python exceptions inside handlers are folded into the handler's visible
  error path (every handler wraps its body in `try/except` and reports via
  `push_message`); environment failures (database write, socket emit) are
  explicit boolean oracles where a claim needs them.
-/

/-! ## Association-list helpers (Python `dict` semantics) -/

/-- Lookup in an association list: first binding wins (`d[k]`/`d.get(k)`). -/
def lookupA {β : Type} : List (String × β) → String → Option β
  | [], _ => none
  | (k, v) :: t, q => if k = q then some v else lookupA t q

/-- Remove every binding for a key (`d.pop(k, None)`). -/
def eraseA {β : Type} (l : List (String × β)) (q : String) : List (String × β) :=
  l.filter (fun p => !(p.1 == q))

/-- `d[k] = v`: bind `k` to `v`, replacing any previous binding. -/
def insertA {β : Type} (l : List (String × β)) (q : String) (v : β) : List (String × β) :=
  (q, v) :: eraseA l q

/-! ## Byte-level encodings -/

/-- Lowercase hex digit for a nibble. -/
def hexDigitLower (n : Nat) : Char :=
  if n < 10 then Char.ofNat (48 + n) else Char.ofNat (87 + n)

/-- Uppercase hex digit for a nibble. -/
def hexDigitUpper (n : Nat) : Char :=
  if n < 10 then Char.ofNat (48 + n) else Char.ofNat (55 + n)

/-- A byte as two lowercase hex characters. -/
def byteToHex (b : Nat) : String :=
  String.mk [hexDigitLower (b / 16 % 16), hexDigitLower (b % 16)]

/-- Lowercase hex string of a byte list (`bytes.hex()` / `hexdigest`). -/
def bytesToHex (bs : List Nat) : String :=
  String.join (bs.map byteToHex)

/-- RFC 4648 base64 alphabet, by index. -/
def base64Char (n : Nat) : Char :=
  if n < 26 then Char.ofNat (65 + n)
  else if n < 52 then Char.ofNat (97 + (n - 26))
  else if n < 62 then Char.ofNat (48 + (n - 52))
  else if n = 62 then Char.ofNat 43
  else Char.ofNat 47

/-- Standard base64 encoding of a byte list (`base64.b64encode`). -/
def base64EncodeChars : List Nat → List Char
  | [] => []
  | [a] =>
      [base64Char (a / 4), base64Char (a % 4 * 16), Char.ofNat 61, Char.ofNat 61]
  | [a, b] =>
      [base64Char (a / 4), base64Char (a % 4 * 16 + b / 16),
       base64Char (b % 16 * 4), Char.ofNat 61]
  | a :: b :: c :: t =>
      base64Char (a / 4) :: base64Char (a % 4 * 16 + b / 16) ::
      base64Char (b % 16 * 4 + c / 64) :: base64Char (c % 64) :: base64EncodeChars t

def base64Encode (bs : List Nat) : String := String.mk (base64EncodeChars bs)

/-- Value of a base64 alphabet character, `none` for padding / garbage. -/
def base64Value (c : Char) : Option Nat :=
  let n := c.toNat
  if 65 ≤ n ∧ n ≤ 90 then some (n - 65)
  else if 97 ≤ n ∧ n ≤ 122 then some (n - 97 + 26)
  else if 48 ≤ n ∧ n ≤ 57 then some (n - 48 + 52)
  else if n = 43 then some 62
  else if n = 47 then some 63
  else none

/-- Standard base64 decoding (`base64.b64decode`), `none` on malformed input. -/
def base64DecodeChars : List Char → Option (List Nat)
  | [] => some []
  | [a, b, p1, p2] =>
      if p1 = Char.ofNat 61 ∧ p2 = Char.ofNat 61 then
        match base64Value a, base64Value b with
        | some va, some vb => some [va * 4 + vb / 16]
        | _, _ => none
      else if p2 = Char.ofNat 61 then
        match base64Value a, base64Value b, base64Value p1 with
        | some va, some vb, some vc =>
            some [va * 4 + vb / 16, vb % 16 * 16 + vc / 4]
        | _, _, _ => none
      else
        match base64Value a, base64Value b, base64Value p1, base64Value p2 with
        | some va, some vb, some vc, some vd =>
            some [va * 4 + vb / 16, vb % 16 * 16 + vc / 4, vc % 4 * 64 + vd]
        | _, _, _, _ => none
  | a :: b :: c :: d :: t =>
      match base64Value a, base64Value b, base64Value c, base64Value d,
            base64DecodeChars t with
      | some va, some vb, some vc, some vd, some rest =>
          some ((va * 4 + vb / 16) :: (vb % 16 * 16 + vc / 4) :: (vc % 4 * 64 + vd) :: rest)
      | _, _, _, _, _ => none
  | _ => none

def base64Decode (s : String) : Option (List Nat) := base64DecodeChars s.data

/-- Structural character-list versions of the string operations the server
uses (kept kernel-computable so witnesses can evaluate them). -/
def isPrefixOfL : List Char → List Char → Bool
  | [], _ => true
  | _ :: _, [] => false
  | a :: as, b :: bs => a = b && isPrefixOfL as bs

/-- `s.startswith(p)`. -/
def strStartsWith (s p : String) : Bool := isPrefixOfL p.data s.data

/-- `s[n:]`. -/
def strDropN (s : String) (n : Nat) : String := String.mk (s.data.drop n)

/-- `s[:n]`. -/
def strTakeN (s : String) (n : Nat) : String := String.mk (s.data.take n)

/-- `str.split(sep)` for a one-character separator. -/
def splitOnCharAux (sep : Char) : List Char → List (List Char)
  | [] => [[]]
  | c :: t =>
      let r := splitOnCharAux sep t
      if c = sep then [] :: r
      else
        match r with
        | h :: t' => (c :: h) :: t'
        | [] => [[c]]

/-- `str.split(sep)` for a one-character separator, on strings. -/
def splitOnChar (sep : Char) (s : String) : List String :=
  (splitOnCharAux sep s.data).map String.mk

/-- UTF-8 encoding of a single code point. -/
def utf8Bytes (c : Char) : List Nat :=
  let n := c.toNat
  if n < 128 then [n]
  else if n < 2048 then [192 + n / 64, 128 + n % 64]
  else if n < 65536 then [224 + n / 4096, 128 + n / 64 % 64, 128 + n % 64]
  else [240 + n / 262144, 128 + n / 4096 % 64, 128 + n / 64 % 64, 128 + n % 64]

/-- UTF-8 encoding of a string (`str.encode()`). -/
def strToBytes (s : String) : List Nat := (s.data.map utf8Bytes).flatten

/-! ## SHA-256 (`hashlib.sha256`), on `Nat` words reduced mod `2^32` -/

def w32 (x : Nat) : Nat := x % 4294967296

def rotr32 (x n : Nat) : Nat := w32 ((x >>> n) ||| (x <<< (32 - n)))

def shaCh (x y z : Nat) : Nat := w32 ((x &&& y) ^^^ ((4294967295 - x) &&& z))

def shaMaj (x y z : Nat) : Nat := w32 ((x &&& y) ^^^ (x &&& z) ^^^ (y &&& z))

def shaBigSigma0 (x : Nat) : Nat := rotr32 x 2 ^^^ rotr32 x 13 ^^^ rotr32 x 22

def shaBigSigma1 (x : Nat) : Nat := rotr32 x 6 ^^^ rotr32 x 11 ^^^ rotr32 x 25

def shaSmallSigma0 (x : Nat) : Nat := rotr32 x 7 ^^^ rotr32 x 18 ^^^ (x >>> 3)

def shaSmallSigma1 (x : Nat) : Nat := rotr32 x 17 ^^^ rotr32 x 19 ^^^ (x >>> 10)

/-- The 64 SHA-256 round constants of FIPS 180-4, in decimal. -/
def shaK : List Nat :=
  [1116352408, 1899447441, 3049323471, 3921009573, 961987163,
   1508970993, 2453635748, 2870763221, 3624381080, 310598401,
   607225278, 1426881987, 1925078388, 2162078206, 2614888103,
   3248222580, 3835390401, 4022224774, 264347078, 604807628,
   770255983, 1249150122, 1555081692, 1996064986, 2554220882,
   2821834349, 2952996808, 3210313671, 3336571891, 3584528711,
   113926993, 338241895, 666307205, 773529912, 1294757372,
   1396182291, 1695183700, 1986661051, 2177026350, 2456956037,
   2730485921, 2820302411, 3259730800, 3345764771, 3516065817,
   3600352804, 4094571909, 275423344, 430227734, 506948616,
   659060556, 883997877, 958139571, 1322822218, 1537002063,
   1747873779, 1955562222, 2024104815, 2227730452, 2361852424,
   2428436474, 2756734187, 3204031479, 3329325298]

/-- SHA-256 padding: append `0x80`, zeros to 56 mod 64, then the bit length
big-endian in 8 bytes. -/
def shaPad (ms : List Nat) : List Nat :=
  let L := ms.length
  let zeros := (120 - (L + 1) % 64) % 64
  let bitLen := L * 8
  ms ++ [128] ++ List.replicate zeros 0 ++
    [bitLen / 2 ^ 56 % 256, bitLen / 2 ^ 48 % 256, bitLen / 2 ^ 40 % 256,
     bitLen / 2 ^ 32 % 256, bitLen / 2 ^ 24 % 256, bitLen / 2 ^ 16 % 256,
     bitLen / 2 ^ 8 % 256, bitLen % 256]

/-- Group a padded byte list into 32-bit big-endian words. -/
def bytesToWords : List Nat → List Nat
  | a :: b :: c :: d :: t => (a * 2 ^ 24 + b * 2 ^ 16 + c * 2 ^ 8 + d) :: bytesToWords t
  | _ => []

/-- Extend 16 message words to the 64-entry message schedule. -/
def shaExtend (w : Array Nat) : Array Nat :=
  (List.range 48).foldl
    (fun w j =>
      let i := j + 16
      w.push (w32 (w.get! (i - 16) + shaSmallSigma0 (w.get! (i - 15)) +
                   w.get! (i - 7) + shaSmallSigma1 (w.get! (i - 2)))))
    w

/-- One SHA-256 compression round over state `(a,b,c,d,e,f,g,h)`. -/
def shaRound (w : Array Nat) (st : Nat × Nat × Nat × Nat × Nat × Nat × Nat × Nat) (i : Nat) :
    Nat × Nat × Nat × Nat × Nat × Nat × Nat × Nat :=
  let (a, b, c, d, e, f, g, h) := st
  let t1 := w32 (h + shaBigSigma1 e + shaCh e f g + shaK.get! i + w.get! i)
  let t2 := w32 (shaBigSigma0 a + shaMaj a b c)
  (w32 (t1 + t2), a, b, c, w32 (d + t1), e, f, g)

/-- Process one 64-byte chunk, updating the 8-word hash state. -/
def shaChunk (hs : List Nat) (chunk : List Nat) : List Nat :=
  let w := shaExtend ((bytesToWords chunk).toArray)
  let st0 := (hs.get! 0, hs.get! 1, hs.get! 2, hs.get! 3, hs.get! 4, hs.get! 5, hs.get! 6, hs.get! 7)
  let (a, b, c, d, e, f, g, h) := (List.range 64).foldl (shaRound w) st0
  [w32 (hs.get! 0 + a), w32 (hs.get! 1 + b), w32 (hs.get! 2 + c), w32 (hs.get! 3 + d),
   w32 (hs.get! 4 + e), w32 (hs.get! 5 + f), w32 (hs.get! 6 + g), w32 (hs.get! 7 + h)]

/-- Split a list into chunks of 64 (structural recursion on a fuel counter so
the kernel can evaluate it; `fuel = l.length` always suffices). -/
def chunks64Aux : Nat → List Nat → List (List Nat)
  | 0, _ => []
  | _, [] => []
  | fuel + 1, a :: t => (a :: t).take 64 :: chunks64Aux fuel ((a :: t).drop 64)

/-- Split a list into chunks of 64. -/
def chunks64 (l : List Nat) : List (List Nat) := chunks64Aux l.length l

/-- SHA-256 digest of a byte list, as 32 bytes. -/
def sha256Bytes (ms : List Nat) : List Nat :=
  let initH : List Nat :=
    [1779033703, 3144134277, 1013904242, 2773480762,
     1359893119, 2600822924, 528734635, 1541459225]
  let finalH := (chunks64 (shaPad ms)).foldl shaChunk initH
  finalH.flatMap (fun x => [x / 2 ^ 24 % 256, x / 2 ^ 16 % 256, x / 2 ^ 8 % 256, x % 256])

/-- `hashlib.sha256(data).hexdigest()`. -/
def sha256Hex (ms : List Nat) : String := bytesToHex (sha256Bytes ms)

/-! ## Data model (`clapshot_server/database.py` rows, §3 of the spec) -/

/-- A `Video` row as consumed by the API server. `added_time` and `duration`
are carried as display strings (their formatting is irrelevant here), `fps`
as the string the `Decimal` round-trip renders. -/
structure Video where
  video_hash : String
  added_by_userid : String
  added_by_username : String
  orig_filename : String
  added_time : String
  duration : String
  fps : String
  recompression_done : Bool
  deriving DecidableEq, Repr

/-- A `Comment` row. `id` is assigned by storage on insert. -/
structure Comment where
  id : Nat := 0
  video_hash : String
  parent_id : Option Nat := none
  user_id : String
  username : String
  comment : String := ""
  timecode : String := ""
  drawing : Option String := none
  deriving DecidableEq, Repr

/-- A `Message` (notification) row. `id` is assigned by storage on insert;
the creation timestamp is elided (no claim observes it). -/
structure Message where
  id : Nat := 0
  event_name : String
  user_id : String
  ref_video_hash : Option String := none
  ref_comment_id : Option Nat := none
  message : String
  details : String := ""
  seen : Bool := false
  deriving DecidableEq, Repr

/-- The storage collaborator's state: rows in insertion ("storage") order,
plus the next ids it will assign. -/
structure DB where
  videos : List Video := []
  comments : List Comment := []
  messages : List Message := []
  nextCommentId : Nat := 1
  nextMessageId : Nat := 1
  deriving DecidableEq, Repr

/-- Modelled from the spec: the storage collaborator's `get_video` (§6
"fetch video"; `database.py` is not among the sources). -/
def DB.get_video (db : DB) (h : String) : Option Video :=
  db.videos.find? (fun v => v.video_hash == h)

/-- Modelled from the spec: `get_video_comments` returns the video's comments
in storage order (§4.2 "full comment history in storage order"). -/
def DB.get_video_comments (db : DB) (h : String) : List Comment :=
  db.comments.filter (fun c => c.video_hash == h)

/-- Modelled from the spec: `get_comment` fetches a single comment by id. -/
def DB.get_comment (db : DB) (i : Nat) : Option Comment :=
  db.comments.find? (fun c => c.id == i)

/-- Modelled from the spec: `add_comment` inserts the row, assigning its id
(§6 "add comment", assumed atomic, no further validation specified). Returns
the stored row, mirroring the ORM populating the object on insert. -/
def DB.add_comment (db : DB) (c : Comment) : DB × Comment :=
  let c' := { c with id := db.nextCommentId }
  ({ db with comments := db.comments ++ [c'], nextCommentId := db.nextCommentId + 1 }, c')

/-- Modelled from the spec: `edit_comment` replaces the comment's text. -/
def DB.edit_comment (db : DB) (i : Nat) (t : String) : DB :=
  { db with comments := db.comments.map (fun c => if c.id == i then { c with comment := t } else c) }

/-- Modelled from the spec: `del_comment` deletes a single comment row. -/
def DB.del_comment (db : DB) (i : Nat) : DB :=
  { db with comments := db.comments.filter (fun c => !(c.id == i)) }

/-- Modelled from the spec: `get_user_messages` lists the identity's stored
notifications in storage order. -/
def DB.get_user_messages (db : DB) (u : String) : List Message :=
  db.messages.filter (fun m => m.user_id == u)

/-- Modelled from the spec: `add_message` writes the notification through,
assigning its id ("which assigns its id and timestamp", §4.3); returns the
stored row. -/
def DB.add_message (db : DB) (m : Message) : DB × Message :=
  let m' := { m with id := db.nextMessageId }
  ({ db with messages := db.messages ++ [m'], nextMessageId := db.nextMessageId + 1 }, m')

/-- Modelled from the spec: `set_message_seen` flips the `seen` flag (§3:
"mutated only to flip seen"). -/
def DB.set_message_seen (db : DB) (i : Nat) (v : Bool) : DB :=
  { db with messages := db.messages.map (fun m => if m.id == i then { m with seen := v } else m) }

/-! ## Filesystem model -/

/-- The slice of the filesystem the server touches: regular files by absolute
path, plus the set of directories created. -/
structure FS where
  files : List (String × List Nat) := []
  dirs : List String := []
  deriving DecidableEq, Repr

/-- `open(p, 'wb')` + write: create or truncate. -/
def FS.write (fs : FS) (p : String) (bs : List Nat) : FS :=
  { fs with files := insertA fs.files p bs }

/-- `Path.mkdir(parents=True, exist_ok=True)` (parent chain elided: only
membership of the leaf directory is ever observed). -/
def FS.mkdirp (fs : FS) (d : String) : FS :=
  { fs with dirs := if d ∈ fs.dirs then fs.dirs else d :: fs.dirs }

/-- `path.exists()` for a regular file. -/
def FS.fileExists (fs : FS) (p : String) : Bool :=
  (lookupA fs.files p).isSome

/-! ## Server state and emitted events -/

/-- State owned by `ClapshotApiServer` plus the `socketio` layer: the
identity→connection map (`userid_to_sid`), the per-connection sessions saved
at `connect`, and room membership; `videos_dir` and `url_base` are the
constructor arguments the handlers read. -/
structure ServerState where
  db : DB := {}
  fs : FS := {}
  userid_to_sid : List (String × String) := []
  sessions : List (String × String × String) := []
  rooms : List (String × String) := []
  videos_dir : String := "/videos"
  url_base : String := "http://localhost"
  deriving DecidableEq, Repr

/-- The payload of a `new_comment` event: `Comment.to_dict()` after the
broadcaster's drawing resolution. -/
structure CommentData where
  id : Nat
  video_hash : String
  parent_id : Option Nat
  user_id : String
  username : String
  comment : String
  timecode : String
  drawing : Option String
  deriving DecidableEq, Repr

/-- `dict_for_video(v)`. -/
structure VideoDict where
  orig_filename : String
  video_hash : String
  video_url : String
  fps : String
  added_time : String
  duration : String
  username : String
  user_id : String
  deriving DecidableEq, Repr

/-- One `sio.emit(event, payload, room=...)` call. `room` is either a
connection id (each sid is its own room) or a video-hash room. -/
inductive Emit where
  | welcome (room : String) (user_id username : String)
  | userVideos (room : String) (username user_id : String) (videos : List VideoDict)
  | openVideo (room : String) (v : VideoDict)
  | newComment (room : String) (d : CommentData)
  | delComment (room : String) (comment_id : Nat)
  | message (room : String) (m : Message)
  deriving DecidableEq, Repr

/-- Whether an emit is a plain `message` event (a per-user notification, not
a room broadcast of a domain mutation). -/
def Emit.isMessage : Emit → Bool
  | .message _ _ => true
  | _ => false

/-! ## Identity resolution and sessions -/

/-- Python truthiness-based `or` on optional strings (an empty string is
falsy, like an absent header). -/
def orFalsy (a : Option String) (b : Option String) : Option String :=
  match a with
  | some s => if s = "" then b else some s
  | none => b

/-- Python `x or default` for an optional string. -/
def orDefault (a : Option String) (d : String) : String :=
  match a with
  | some s => if s = "" then d else s
  | none => d

/-- `user_from_headers`: trust the reverse proxy's identity headers, falling
back to the anonymous placeholder. -/
def user_from_headers (headers : List (String × String)) : String × String :=
  let uid := orFalsy (lookupA headers "HTTP_X_REMOTE_USER_ID")
      (orFalsy (lookupA headers "X-Remote-User-Id") (lookupA headers "X-REMOTE-USER-ID"))
  let uname := orFalsy (lookupA headers "HTTP_X_REMOTE_USER_NAME")
      (orFalsy (lookupA headers "X-Remote-User-Name") (lookupA headers "X-REMOTE-USER-NAME"))
  (orDefault uid "anonymous", orDefault uname "Anonymous")

/-- `get_user(sid)`: read the session saved at connect. A missing session or
session key yields `none` (Python `None`). -/
def getUser (st : ServerState) (sid : String) : Option String × Option String :=
  match lookupA st.sessions sid with
  | some (u, n) => (some u, some n)
  | none => (none, none)

/-! ## `push_message` (the Notification Mailbox's push, §4.3) -/

/-- The second half of `push_message`: emit the notification to the
recipient's current connection, if the identity routes to one. -/
def deliver (st : ServerState) (m : Message) : List Emit :=
  match lookupA st.userid_to_sid m.user_id with
  | some sid => [Emit.message sid m]
  | none => []

/-- `ClapshotApiServer.push_message(msg, dont_throw, persist)`.

`persistFails` / `emitFails` are environment oracles for the two `try`
blocks (a storage write failure, a socket emit failure). `Except.error ()`
is the call raising to its caller; the normal result is the new state and
the emits performed. -/
def push_message (st : ServerState) (m : Message)
    (dont_throw persist persistFails emitFails : Bool) :
    Except Unit (ServerState × List Emit) :=
  let step1 : Except Unit (ServerState × Message) :=
    if persist then
      if persistFails then
        if dont_throw then .ok (st, m) else .error ()
      else
        let (db', m') := DB.add_message st.db m
        .ok ({ st with db := db' }, m')
    else .ok (st, m)
  match step1 with
  | .error e => .error e
  | .ok (st1, m1) =>
    match lookupA st1.userid_to_sid m1.user_id with
    | some sid =>
        if emitFails then
          if dont_throw then .ok (st1, []) else .error ()
        else .ok (st1, [Emit.message sid m1])
    | none => .ok (st1, [])

/-- `push_message` as the handlers see it (no environment failure); with no
failing oracle the call never raises. -/
def pushOk (st : ServerState) (m : Message) (persist : Bool) : ServerState × List Emit :=
  match push_message st m true persist false false with
  | .ok r => r
  | .error _ => (st, [])

/-- §4.3 as amended: the push contract restated from the (corrected) spec
words. When `persist` is set and the write fails, the failure is raised to
the caller unless `suppressErrors` (`dont_throw`) is set — and a raised
persistence failure aborts the call, so no delivery is attempted. Otherwise
(write succeeded, its failure was suppressed, or `persist` is unset)
delivery is attempted: the notification is emitted exactly when the
recipient identity routes to a live connection, with a delivery failure
swallowed when `suppressErrors` is set and raised otherwise. -/
def pushContract (st : ServerState) (m : Message)
    (suppress persist persistFails emitFails : Bool) :
    Except Unit (ServerState × List Emit) :=
  if persist && persistFails && !suppress then .error ()
  else
    let (st1, m1) :=
      if persist && !persistFails then
        let (db', m') := DB.add_message st.db m
        ({ st with db := db' }, m')
      else (st, m)
    match lookupA st1.userid_to_sid m1.user_id with
    | some sid =>
        if emitFails then
          if suppress then .ok (st1, []) else .error ()
        else .ok (st1, [Emit.message sid m1])
    | none => .ok (st1, [])

/-! ## Room broadcaster helpers -/

/-- `Comment.to_dict()`. -/
def Comment.toData (c : Comment) : CommentData :=
  { id := c.id, video_hash := c.video_hash, parent_id := c.parent_id,
    user_id := c.user_id, username := c.username, comment := c.comment,
    timecode := c.timecode, drawing := c.drawing }

/-- `DataURI.make('image/webp', charset='utf-8', base64=True, data=bs)`. -/
def mkWebpDataURI (bs : List Nat) : String :=
  "data:image/webp;charset=utf-8;base64," ++ base64Encode bs

/-- `_emit_new_comment(c, room)`: before emitting, a stored drawing filename
(not an inline `data:` form) is loaded from
`videos_dir/<video_hash>/drawings/<fn>` and re-encoded as a data URI; a
missing blob appends a visible marker to the comment text instead. -/
def emitNewComment (fs : FS) (videos_dir : String) (c : Comment) (room : String) : Emit :=
  let data := c.toData
  match c.drawing with
  | some d =>
      if strStartsWith d "data:" then .newComment room data
      else
        let path := videos_dir ++ "/" ++ c.video_hash ++ "/drawings/" ++ d
        match lookupA fs.files path with
        | some bs => .newComment room { data with drawing := some (mkWebpDataURI bs) }
        | none => .newComment room { data with comment := data.comment ++ " [DRAWING NOT FOUND]" }
  | none => .newComment room data

/-- `str.rstrip('/')`. -/
def rstripSlash (s : String) : String :=
  String.mk (s.data.reverse.dropWhile (fun c => c = Char.ofNat 47)).reverse

/-- `urllib.parse.quote(s, safe='')`: percent-encode every UTF-8 byte except
the unreserved characters. -/
def quoteComponent (s : String) : String :=
  String.join ((strToBytes s).map (fun b =>
    if (65 ≤ b ∧ b ≤ 90) ∨ (97 ≤ b ∧ b ≤ 122) ∨ (48 ≤ b ∧ b ≤ 57) ∨
       b = 95 ∨ b = 46 ∨ b = 45 ∨ b = 126 then
      String.mk [Char.ofNat b]
    else
      String.mk [Char.ofNat 37, hexDigitUpper (b / 16 % 16), hexDigitUpper (b % 16)]))

/-- `dict_for_video(v)` (the `Decimal` 3-digit fps rounding and the
`isoformat` timestamp are carried as the strings stored on the row). -/
def dict_for_video (st : ServerState) (v : Video) : VideoDict :=
  { orig_filename := v.orig_filename,
    video_hash := v.video_hash,
    video_url := rstripSlash st.url_base ++ "/video/" ++ v.video_hash ++ "/" ++
      (if v.recompression_done then "video.mp4" else "orig/" ++ quoteComponent v.orig_filename),
    fps := v.fps,
    added_time := v.added_time,
    duration := v.duration,
    username := v.added_by_username,
    user_id := v.added_by_userid }

/-! ## Data URIs (`datauri.DataURI`) -/

/-- Parse a data URI into its media type and decoded payload bytes
(`DataURI(s).mimetype` / `.data`). Only the shapes the server exercises are
covered: the payload of a `;base64` URI is base64-decoded (the base64
alphabet contains no comma, so the first comma ends the header); a non-base64
payload is taken as its UTF-8 bytes. `none` is a parse failure (a raised
`InvalidDataURI`). -/
def parseDataURI (s : String) : Option (String × List Nat) :=
  if strStartsWith s "data:" then
    match splitOnChar (Char.ofNat 44) (strDropN s 5) with
    | [header, payload] =>
        let parts := splitOnChar (Char.ofNat 59) header
        let mime := parts.headD ""
        if parts.contains "base64" then
          (base64Decode payload).map (fun bs => (mime, bs))
        else some (mime, strToBytes payload)
    | _ => none
  else none

/-! ## Socket.IO event handlers -/

/-- `sio.enter_room(sid, room)`: membership is a set. -/
def joinRoom (rooms : List (String × String)) (sid room : String) : List (String × String) :=
  if (sid, room) ∈ rooms then rooms else rooms ++ [(sid, room)]

/-- The `connect` handler: resolve identity from the trusted headers, save
the session, record the identity→connection mapping (last-connect-wins),
greet, and join the lobby room. -/
def connect (st : ServerState) (sid : String) (headers : List (String × String)) :
    ServerState × List Emit :=
  let (uid, uname) := user_from_headers headers
  let st1 := { st with
    sessions := insertA st.sessions sid (uid, uname),
    userid_to_sid := insertA st.userid_to_sid uid sid }
  let st2 := { st1 with rooms := joinRoom st1.rooms sid "huoneusto" }
  (st2, [Emit.welcome sid uid uname])

/-- The `disconnect` handler (`userid_to_sid.pop(user_id, None)`), followed
by the socketio layer's own teardown of the connection's session and rooms. -/
def disconnect (st : ServerState) (sid : String) : ServerState :=
  let st1 :=
    match (lookupA st.sessions sid).map Prod.fst with
    | some uid => { st with userid_to_sid := eraseA st.userid_to_sid uid }
    | none => st
  { st1 with
    sessions := eraseA st1.sessions sid,
    rooms := st1.rooms.filter (fun p => !(p.1 == sid)) }

/-- The `open_video` handler: on an unknown hash, an error notification to
the caller; otherwise join the video's room, emit the descriptor to the
caller, then one `new_comment` per stored comment in storage order. -/
def open_video (st : ServerState) (sid : String) (video_hash : String) :
    ServerState × List Emit :=
  match DB.get_video st.db video_hash with
  | none =>
      let uid := (getUser st sid).1.getD ""
      pushOk st { event_name := "error", user_id := uid, ref_video_hash := some video_hash,
                  message := "No such video." } false
  | some v =>
      let st' := { st with rooms := joinRoom st.rooms sid video_hash }
      (st',
       Emit.openVideo sid (dict_for_video st v) ::
         (DB.get_video_comments st.db video_hash).map
           (fun c => emitNewComment st.fs st.videos_dir c sid))

/-- The `add_comment` request payload (`msg.get` of an absent key is
`none`). -/
structure AddCommentMsg where
  video_hash : String
  parent_id : Option Nat := none
  comment : Option String := none
  timecode : Option String := none
  drawing : Option String := none
  deriving DecidableEq, Repr

/-- Python `msg.get('parent_id') or None`: a falsy id (0) collapses to
`None`. -/
def orNoneNat : Option Nat → Option Nat
  | some 0 => none
  | x => x

/-- The `add_comment` handler. The parsed drawing, when present and valid,
is written content-addressed under `videos_dir/<hash>/drawings/` before the
row is inserted; the stored row is then broadcast to the video's room. Any
failed assertion lands in the handler's `except` path: an error notification
to the requester and no mutation. -/
def add_comment (st : ServerState) (sid : String) (msg : AddCommentMsg) :
    ServerState × List Emit :=
  let (uidO, unameO) := getUser st sid
  let uid := uidO.getD ""
  let uname := unameO.getD ""
  let fail := fun (details : String) =>
    pushOk st { event_name := "error", user_id := uid, ref_video_hash := some msg.video_hash,
                message := "Failed to add comment.", details := details } false
  if uid = "" ∨ uname = "" then fail ""
  else
    match DB.get_video st.db msg.video_hash with
    | none =>
        pushOk st { event_name := "error", user_id := uid, ref_video_hash := some msg.video_hash,
                    message := "No such video. Cannot comment." } false
    | some _ =>
        let drawRes : Except String (ServerState × Option String) :=
          match msg.drawing with
          | none => .ok (st, none)
          | some s =>
            if s = "" then .ok (st, none)
            else if ¬(strStartsWith s "data:" = true) then .error "Drawing is not a data URI."
            else
              match parseDataURI s with
              | none => .error "invalid data URI"
              | some (mime, bs) =>
                  if ¬(mime = "image/webp") then .error "Invalid mimetype in drawing."
                  else
                    let ext := (splitOnChar (Char.ofNat 47) mime).getD 1 ""
                    let fn := strTakeN (sha256Hex bs) 16 ++ "." ++ ext
                    let dir := st.videos_dir ++ "/" ++ msg.video_hash ++ "/drawings"
                    let path := dir ++ "/" ++ fn
                    .ok ({ st with fs := (st.fs.mkdirp dir).write path bs }, some fn)
        match drawRes with
        | .error e => fail e
        | .ok (st1, drawingOpt) =>
            let c0 : Comment :=
              { video_hash := msg.video_hash, parent_id := orNoneNat msg.parent_id,
                user_id := uid, username := uname,
                comment := orDefault msg.comment "", timecode := orDefault msg.timecode "",
                drawing := drawingOpt }
            let (db', c) := DB.add_comment st1.db c0
            let st2 := { st1 with db := db' }
            (st2, [emitNewComment st2.fs st2.videos_dir c msg.video_hash])

/-- The `edit_comment` handler: author/admin only; update, then broadcast
`del_comment` followed by the re-fetched comment as `new_comment`. -/
def edit_comment (st : ServerState) (sid : String) (comment_id : Nat) (newText : String) :
    ServerState × List Emit :=
  let (uidO, unameO) := getUser st sid
  let uid := uidO.getD ""
  let fail := fun (d : String) =>
    pushOk st { event_name := "error", user_id := uid, ref_comment_id := some comment_id,
                message := "Failed to edit comment.", details := d } false
  if uid = "" ∨ unameO.getD "" = "" then fail ""
  else
    match DB.get_comment st.db comment_id with
    | none => fail "\x27NoneType\x27 object has no attribute \x27video_hash\x27"
    | some old =>
        if uid = old.user_id ∨ uid = "admin" then
          let db' := DB.edit_comment st.db comment_id newText
          let st' := { st with db := db' }
          match DB.get_comment db' comment_id with
          | some c =>
              (st', [Emit.delComment old.video_hash comment_id,
                     emitNewComment st'.fs st'.videos_dir c old.video_hash])
          | none =>
              let r := pushOk st' { event_name := "error", user_id := uid,
                                    ref_comment_id := some comment_id,
                                    message := "Failed to edit comment.",
                                    details := "\x27NoneType\x27 object has no attribute \x27to_dict\x27" } false
              (r.1, Emit.delComment old.video_hash comment_id :: r.2)
        else fail "You can only edit your own comments"

/-- The `del_comment` handler: author/admin only; rejected when any comment
of the same video replies to it; otherwise delete and broadcast. -/
def del_comment (st : ServerState) (sid : String) (comment_id : Nat) :
    ServerState × List Emit :=
  let (uidO, unameO) := getUser st sid
  let uid := uidO.getD ""
  let fail := fun (d : String) =>
    pushOk st { event_name := "error", user_id := uid, ref_comment_id := some comment_id,
                message := "Failed to delete comment.", details := d } false
  if uid = "" ∨ unameO.getD "" = "" then fail ""
  else
    match DB.get_comment st.db comment_id with
    | none => fail "\x27NoneType\x27 object has no attribute \x27video_hash\x27"
    | some old =>
        if ¬(uid = old.user_id ∨ uid = "admin") then
          fail "You can only delete your own comments"
        else if (DB.get_video_comments st.db old.video_hash).any
            (fun c => c.parent_id == some comment_id) then
          fail "Can\x27t delete a comment that has replies"
        else
          ({ st with db := DB.del_comment st.db comment_id },
           [Emit.delComment old.video_hash comment_id])

/-- One iteration of the `list_my_messages` loop: emit the message's current
snapshot, then mark it seen if it was not. -/
def listStep (sid : String) (acc : DB × List Emit) (m : Message) : DB × List Emit :=
  ((if !m.seen then DB.set_message_seen acc.1 m.id true else acc.1),
   acc.2 ++ [Emit.message sid m])

/-- The `list_my_messages` handler: one `message` event per stored
notification of the requesting identity, in storage order, marking each
previously-unseen one seen after emitting its (still-unseen) snapshot. -/
def list_my_messages (st : ServerState) (sid : String) : ServerState × List Emit :=
  let uid := (getUser st sid).1.getD ""
  if uid = "" then
    (st, [Emit.message sid { event_name := "error", user_id := uid,
                             message := "Failed to get messages.", details := "" }])
  else
    let msgs := DB.get_user_messages st.db uid
    let folded := msgs.foldl (listStep sid) (st.db, [])
    ({ st with db := folded.1 }, folded.2)

/-! ## The HTTP upload endpoint (`post_upload_file`) -/

/-- One multipart field of the POST body, with the nonempty chunks its byte
stream yields before EOF. -/
structure MultipartField where
  name : String
  filename : String
  chunks : List (List Nat)
  deriving DecidableEq, Repr

/-- Outcome of the HTTP handler: an explicit `web.Response`, an assertion
escaping the handler (aiohttp then reports an internal server error), or the
handler falling off the end with no response. -/
inductive HttpOutcome where
  | resp (status : Nat) (text : String)
  | assertError (text : String)
  | noResponse
  deriving DecidableEq, Repr

/-- `Path(s).name` (pathlib basename: last `/`-separated component, with
empty and `.` components dropped). -/
def pathName (s : String) : String :=
  ((splitOnChar (Char.ofNat 47) s).filter (fun c => !(c == "") && !(c == "."))).getLastD ""

/-- The `post_upload_file` HTTP handler. Because the `return 400` sits
inside the `async for` body, only the first multipart field is ever
examined. The bounded reader/writer relay is summarised by its effect: the
destination file holds the concatenation of the stream's chunks. `permFails`
is the environment oracle for a `PermissionError` raised by the filesystem,
modelled at the first write effect. On success the result carries the
`ingest_callback(dst, user_id)` invocation. -/
def post_upload_file (upload_dir : String) (fs : FS) (headers : List (String × String))
    (uuid : String) (fields : List MultipartField) (permFails : Bool) :
    HttpOutcome × FS × Option (String × String) :=
  let (user_id, _) := user_from_headers headers
  if user_id = "" then (.assertError "No user_id for upload", fs, none)
  else
    match fields with
    | [] => (.noResponse, fs, none)
    | f :: _ =>
      if ¬(f.name = "fileupload") then (.resp 400 "No fileupload field in POST", fs, none)
      else if ¬(pathName f.filename = f.filename) then
        (.assertError "Filename must not contain path", fs, none)
      else
        let dir := upload_dir ++ "/" ++ uuid
        let dst := dir ++ "/" ++ pathName f.filename
        if fs.fileExists dst then
          (.assertError "Upload dst already exists, even tough it was prefixed with uuid4. Bug??", fs, none)
        else if permFails then (.resp 500 "Permission error saving upload", fs, none)
        else (.resp 200 "Upload OK", (fs.mkdirp dir).write dst f.chunks.flatten, some (dst, user_id))

/-! ## Concrete fixtures used by witnesses and counterexamples -/

/-- Identity headers of the fixture user `bob`. -/
def hdrsBob : List (String × String) :=
  [("HTTP_X_REMOTE_USER_ID", "bob"), ("HTTP_X_REMOTE_USER_NAME", "Bob")]

/-- A fixture video owned by `alice`. -/
def vidH1 : Video :=
  { video_hash := "h1", added_by_userid := "alice", added_by_username := "Alice",
    orig_filename := "a.mp4", added_time := "2022-11-01T10:00:00", duration := "5.0",
    fps := "23.976", recompression_done := true }

/-- A second fixture video. -/
def vidH2 : Video :=
  { video_hash := "h2", added_by_userid := "alice", added_by_username := "Alice",
    orig_filename := "b.mp4", added_time := "2022-11-02T10:00:00", duration := "7.0",
    fps := "25", recompression_done := false }

/-- A fixture server state: both videos, `alice` connected as `s1`. -/
def stAlice : ServerState :=
  { db := { videos := [vidH1, vidH2] },
    userid_to_sid := [("alice", "s1")],
    sessions := [("s1", ("alice", "Alice"))] }


/-- A fixture state for C3: user `u1` currently routes to connection `s9`. -/
def stRouted : ServerState := { userid_to_sid := [("u1", "s9")] }

/-- A fixture notification addressed to `u1`. -/
def msgU1 : Message := { event_name := "ok", user_id := "u1", message := "done" }

/-- A multipart field with an unexpected name. -/
def fldOther : MultipartField := { name := "other", filename := "x.bin", chunks := [[9]] }

/-- The expected `fileupload` multipart field. -/
def fldUpload : MultipartField := { name := "fileupload", filename := "clip.mp4", chunks := [[1, 2], [3]] }

/-- A `fileupload` field whose filename carries a path traversal. -/
def fldEvil : MultipartField := { name := "fileupload", filename := "../../etc/passwd", chunks := [[1]] }

/-- An `add_comment` request whose `parent_id` references no comment at all. -/
def msgDangling : AddCommentMsg := { video_hash := "h1", parent_id := some 42, comment := some "hi" }

/-- The comment row that request produces. -/
def cmtDangling : Comment :=
  { id := 1, video_hash := "h1", parent_id := some 42, user_id := "alice", username := "Alice",
    comment := "hi", timecode := "", drawing := none }

/-- `stAlice` after `alice` adds a root comment (id 1) on video `h1`. -/
def stWithRoot : ServerState :=
  (add_comment stAlice "s1" { video_hash := "h1", comment := some "root" }).1

/-- `stWithRoot` after `alice` adds, on the OTHER video `h2`, a comment whose
`parent_id` is 1 — reachable because `add_comment` never validates
`parent_id` (see C1). -/
def stCross : ServerState :=
  (add_comment stWithRoot "s1"
    { video_hash := "h2", parent_id := some 1, comment := some "cross reply" }).1

/-- `stWithRoot` after `alice` adds a same-video reply to comment 1. -/
def stReply : ServerState :=
  (add_comment stWithRoot "s1" { video_hash := "h1", parent_id := some 1, comment := some "reply" }).1

/-- The root comment row of the C2 fixtures. -/
def cRoot : Comment :=
  { id := 1, video_hash := "h1", parent_id := none, user_id := "alice", username := "Alice",
    comment := "root", timecode := "", drawing := none }

/-- The same-video reply row of the C2 witness fixture. -/
def cReply : Comment :=
  { id := 2, video_hash := "h1", parent_id := some 1, user_id := "alice", username := "Alice",
    comment := "reply", timecode := "", drawing := none }

/-- A comment of `alice` carrying a stored drawing reference. -/
def cDrawn : Comment :=
  { id := 7, video_hash := "h1", parent_id := none, user_id := "alice", username := "Alice",
    comment := "old", timecode := "1:02", drawing := some "0123456789abcdef.webp" }

/-- A state holding `cDrawn`, with its drawing blob absent from the
filesystem. -/
def stDrawn : ServerState :=
  { db := { videos := [vidH1], comments := [cDrawn], nextCommentId := 8 },
    userid_to_sid := [("alice", "s1")],
    sessions := [("s1", ("alice", "Alice"))] }

/-- Every message with the given id is marked seen in the given store. -/
def allSeenWithId (db : DB) (i : Nat) : Prop :=
  ∀ x ∈ db.messages, x.id = i → x.seen = true

/-- A notification addressed to the (offline) user `bob`. -/
def msgBob : Message := { event_name := "info", user_id := "bob", message := "video ready" }

/-- A comment submission carrying bytes `[1,2,3]` as a webp data URI. -/
def msgDraw1 : AddCommentMsg :=
  { video_hash := "h1", comment := some "look", drawing := some "data:image/webp;base64,AQID" }

/-- The same bytes under a different data-URI spelling. -/
def msgDraw2 : AddCommentMsg :=
  { video_hash := "h1", comment := some "again",
    drawing := some "data:image/webp;charset=utf-8;base64,AQID" }

/-! ## Supporting lemmas -/

theorem lookupA_insertA_self {β : Type} (l : List (String × β)) (q : String) (v : β) :
    lookupA (insertA l q v) q = some v := by
  simp [insertA, lookupA]

theorem lookupA_eraseA_self {β : Type} (l : List (String × β)) (q : String) :
    lookupA (eraseA l q) q = none := by
  induction l with
  | nil => rfl
  | cons p t ih =>
    simp only [eraseA, List.filter_cons] at ih ⊢
    by_cases h : p.1 = q
    · simp [h, ih]
    · simp [h, lookupA, ih]

theorem lookupA_eraseA_ne {β : Type} (l : List (String × β)) (q q' : String) (h : q ≠ q') :
    lookupA (eraseA l q) q' = lookupA l q' := by
  induction l with
  | nil => rfl
  | cons p t ih =>
    simp only [eraseA, List.filter_cons] at ih ⊢
    by_cases hp : p.1 = q
    · subst hp
      simp [lookupA, h, ih]
    · simp [hp, lookupA, ih]

theorem lookupA_insertA_ne {β : Type} (l : List (String × β)) (q q' : String) (v : β)
    (h : q ≠ q') : lookupA (insertA l q v) q' = lookupA l q' := by
  simp [insertA, lookupA, h, lookupA_eraseA_ne l q q' h]

theorem pushOk_no_persist (st : ServerState) (m : Message) :
    pushOk st m false = (st, deliver st m) := by
  unfold pushOk push_message deliver
  cases h : lookupA st.userid_to_sid m.user_id <;> simp [h]

theorem deliver_isMessage (st : ServerState) (m : Message) :
    ∀ e ∈ deliver st m, e.isMessage = true := by
  unfold deliver
  cases h : lookupA st.userid_to_sid m.user_id <;> simp [Emit.isMessage]

theorem orDefault_ne_empty (a : Option String) (d : String) (hd : d ≠ "") :
    orDefault a d ≠ "" := by
  cases a with
  | none => simpa [orDefault] using hd
  | some s =>
    by_cases hs : s = "" <;> simp [orDefault, hs, hd]

theorem user_from_headers_fst_ne_empty (h : List (String × String)) :
    (user_from_headers h).1 ≠ "" := by
  unfold user_from_headers
  exact orDefault_ne_empty _ _ (by decide)

/-- `emitNewComment` always produces a single `new_comment` event to the
given room, carrying the comment's id and either its text verbatim or its
text with the missing-drawing marker appended. -/
theorem emitNewComment_shape (fs : FS) (vd : String) (c : Comment) (room : String) :
    ∃ d : CommentData, emitNewComment fs vd c room = Emit.newComment room d ∧
      d.id = c.id ∧ (d.comment = c.comment ∨ d.comment = c.comment ++ " [DRAWING NOT FOUND]") := by
  unfold emitNewComment
  cases hd : c.drawing with
  | none => exact ⟨c.toData, by simp [Comment.toData]⟩
  | some s =>
    by_cases hs : strStartsWith s "data:" = true
    · exact ⟨c.toData, by simp [hs, Comment.toData]⟩
    · cases hl : lookupA fs.files (vd ++ "/" ++ c.video_hash ++ "/drawings/" ++ s) with
      | none =>
          refine ⟨{ c.toData with comment := c.toData.comment ++ " [DRAWING NOT FOUND]" },
            by simp [hs, hl], by simp [Comment.toData], Or.inr (by simp [Comment.toData])⟩
      | some bs =>
          refine ⟨{ c.toData with drawing := some (mkWebpDataURI bs) },
            by simp [hs, hl], by simp [Comment.toData], Or.inl (by simp [Comment.toData])⟩

/-! ## C10 — disconnect of a superseded connection drops the identity route -/

/-- C10: if an identity connects as `c1` and later as `c2` (the registry then
maps it to `c2`), a subsequent `disconnect` of the superseded `c1` removes
the identity→connection entry entirely: `route(identity)` becomes `none`
(not `c2`), and user-targeted pushes to the identity are no longer delivered
to the still-live `c2`. -/
theorem C10_superseded_disconnect_drops_route
    (st : ServerState) (u uname1 uname2 c1 c2 : String)
    (hdr1 hdr2 : List (String × String))
    (h1 : user_from_headers hdr1 = (u, uname1))
    (h2 : user_from_headers hdr2 = (u, uname2))
    (hne : c1 ≠ c2) :
    lookupA (disconnect (connect (connect st c1 hdr1).1 c2 hdr2).1 c1).userid_to_sid u = none ∧
    (∀ (m : Message) (dt : Bool), m.user_id = u →
      push_message (disconnect (connect (connect st c1 hdr1).1 c2 hdr2).1 c1) m dt false false false =
        .ok (disconnect (connect (connect st c1 hdr1).1 c2 hdr2).1 c1, [])) := by
  have hsess : lookupA (connect (connect st c1 hdr1).1 c2 hdr2).1.sessions c1 = some (u, uname1) := by
    simp only [connect, h1, h2]
    rw [lookupA_insertA_ne _ _ _ _ (Ne.symm hne), lookupA_insertA_self]
  have hmap : (disconnect (connect (connect st c1 hdr1).1 c2 hdr2).1 c1).userid_to_sid =
      eraseA (connect (connect st c1 hdr1).1 c2 hdr2).1.userid_to_sid u := by
    simp [disconnect, hsess]
  have hroute : lookupA (disconnect (connect (connect st c1 hdr1).1 c2 hdr2).1 c1).userid_to_sid u = none := by
    rw [hmap, lookupA_eraseA_self]
  refine ⟨hroute, fun m dt hm => ?_⟩
  unfold push_message
  simp [hm, hroute]

/-- Witness for C10: user `bob` connects as `c1` then `c2`; `disconnect c1`
leaves `bob` with no route. -/
theorem C10_witness :
    user_from_headers hdrsBob = ("bob", "Bob") ∧ ("c1" : String) ≠ "c2" ∧
    lookupA (disconnect (connect (connect stAlice "c1" hdrsBob).1 "c2" hdrsBob).1 "c1").userid_to_sid "bob" = none :=
  ⟨by decide, by decide,
   (C10_superseded_disconnect_drops_route stAlice "bob" "Bob" "Bob" "c1" "c2" hdrsBob hdrsBob
     (by decide) (by decide) (by decide)).1⟩

/-! ## C3 — `push_message` persistence/delivery contract -/

/-- Counterexample to C3 as stated: with `persist` set, `suppressErrors`
unset and a failing storage write, the call raises and performs NO live
delivery, although the recipient identity routes to the live connection
`s9` — the claim requires delivery to be attempted (and, being routed, to
emit) "regardless of the persistence outcome". -/
theorem C3_counterexample :
    lookupA stRouted.userid_to_sid msgU1.user_id = some "s9" ∧
    push_message stRouted msgU1 false true true false = Except.error () :=
  ⟨rfl, rfl⟩

/-- C3 as amended: the push operation satisfies `pushContract` — a
persistence failure is raised exactly when `suppressErrors` is unset, and a
raised persistence failure aborts the call with no delivery attempt;
otherwise delivery is attempted, emitting exactly when the recipient routes
to a live connection, with delivery failure swallowed iff `suppressErrors`
is set. -/
theorem C3_amended_push_contract (st : ServerState) (m : Message)
    (suppress persist persistFails emitFails : Bool) :
    push_message st m suppress persist persistFails emitFails =
      pushContract st m suppress persist persistFails emitFails := by
  unfold push_message pushContract
  cases persist <;> cases persistFails <;> cases suppress <;> simp

/-! ## C7 / C8 — the upload endpoint -/

/-- C7, at the inputs that decide it: the handler inspects only the FIRST
multipart field (the `return 400` sits inside the loop body), so a body
whose first field is not `fileupload` is answered 400 and nothing is stored
even though `fileupload` follows; a body led by `fileupload` is stored and
answered 200; a permission failure while saving is answered 500; an empty
body produces no response at all. -/
theorem C7_first_field_decides :
    post_upload_file "/up" {} hdrsBob "u1" [fldOther, fldUpload] false =
      (.resp 400 "No fileupload field in POST", {}, none) ∧
    post_upload_file "/up" {} hdrsBob "u1" [fldUpload, fldOther] false =
      (.resp 200 "Upload OK",
       { files := [("/up/u1/clip.mp4", [1, 2, 3])], dirs := ["/up/u1"] },
       some ("/up/u1/clip.mp4", "bob")) ∧
    post_upload_file "/up" {} hdrsBob "u1" [fldUpload] true =
      (.resp 500 "Permission error saving upload", {}, none) ∧
    post_upload_file "/up" {} hdrsBob "u1" [] false = (.noResponse, {}, none) := by
  refine ⟨by decide, by decide, by decide, by decide⟩

/-- C8: an upload whose supplied filename has a path-separating component
(its basename differs from the filename) fails the `assert` before the
destination directory is created or any byte is written: the filesystem is
returned untouched and the ingestion callback is never invoked. -/
theorem C8_unsafe_filename_rejected_before_any_write
    (upload_dir uuid : String) (fs : FS) (headers : List (String × String))
    (f : MultipartField) (rest : List MultipartField) (permFails : Bool)
    (hname : f.name = "fileupload")
    (hbad : pathName f.filename ≠ f.filename) :
    post_upload_file upload_dir fs headers uuid (f :: rest) permFails =
      (.assertError "Filename must not contain path", fs, none) := by
  rcases hfh : user_from_headers headers with ⟨uid, uname⟩
  have hu : uid ≠ "" := by
    have h := user_from_headers_fst_ne_empty headers
    rw [hfh] at h
    exact h
  simp [post_upload_file, hfh, hu, hname, hbad]

/-- Witness for C8 at a concrete traversal filename. -/
theorem C8_witness :
    fldEvil.name = "fileupload" ∧ pathName fldEvil.filename ≠ fldEvil.filename ∧
    post_upload_file "/up" ({} : FS) hdrsBob "u1" [fldEvil] false =
      (.assertError "Filename must not contain path", ({} : FS), none) :=
  ⟨rfl, by decide,
   C8_unsafe_filename_rejected_before_any_write "/up" "u1" {} hdrsBob fldEvil [] false rfl (by decide)⟩

/-! ## C1 — `add_comment` and the `parent_id` invariant -/

/-- Counterexample to C1 as stated: from a state with NO comments at all,
`add_comment` with `parent_id = 42` succeeds (the comment is stored and
broadcast), leaving a reachable store whose only comment has a `parent_id`
that references no comment whatsoever. -/
theorem C1_counterexample :
    stAlice.db.comments = [] ∧
    (add_comment stAlice "s1" msgDangling).1.db.comments = [cmtDangling] ∧
    (add_comment stAlice "s1" msgDangling).1.db.comments.all (fun c => !(c.id == 42)) = true ∧
    (add_comment stAlice "s1" msgDangling).2 =
      [Emit.newComment "h1"
        { id := 1, video_hash := "h1", parent_id := some 42, user_id := "alice",
          username := "Alice", comment := "hi", timecode := "", drawing := none }] := by
  refine ⟨rfl, by decide, by decide, by decide⟩

/-- C1 as amended: a successful `add_comment` stores the request's
`parent_id` verbatim (modulo Python falsiness of 0) — the handler validates
only that the video exists (and the drawing encoding, when one is supplied),
never that `parent_id` references an existing comment of the same video, so
dangling and cross-video parent references are reachable. -/
theorem C1_amended_parent_id_stored_unvalidated
    (st : ServerState) (sid uid uname : String) (msg : AddCommentMsg) (v : Video)
    (hsess : lookupA st.sessions sid = some (uid, uname))
    (huid : uid ≠ "") (hun : uname ≠ "")
    (hvid : DB.get_video st.db msg.video_hash = some v)
    (hdraw : msg.drawing = none) :
    add_comment st sid msg =
      ({ st with db := { st.db with
            comments := st.db.comments ++
              [{ id := st.db.nextCommentId, video_hash := msg.video_hash,
                 parent_id := orNoneNat msg.parent_id, user_id := uid, username := uname,
                 comment := orDefault msg.comment "", timecode := orDefault msg.timecode "",
                 drawing := none }],
            nextCommentId := st.db.nextCommentId + 1 } },
       [emitNewComment st.fs st.videos_dir
          { id := st.db.nextCommentId, video_hash := msg.video_hash,
            parent_id := orNoneNat msg.parent_id, user_id := uid, username := uname,
            comment := orDefault msg.comment "", timecode := orDefault msg.timecode "",
            drawing := none } msg.video_hash]) := by
  simp [add_comment, getUser, hsess, huid, hun, hvid, hdraw, DB.add_comment]

/-- Witness for C1's amended theorem, at the dangling-parent request. -/
theorem C1_witness :
    ("alice" : String) ≠ "" ∧ ("Alice" : String) ≠ "" ∧
    lookupA stAlice.sessions "s1" = some ("alice", "Alice") ∧
    DB.get_video stAlice.db "h1" = some vidH1 ∧ msgDangling.drawing = none ∧
    (add_comment stAlice "s1" msgDangling).1.db.comments = stAlice.db.comments ++ [cmtDangling] := by
  have h := C1_amended_parent_id_stored_unvalidated stAlice "s1" "alice" "Alice" msgDangling vidH1
    (by decide) (by decide) (by decide) (by decide) rfl
  exact ⟨by decide, by decide, by decide, by decide, rfl, by rw [h]; rfl⟩

/-! ## C2 — deleting a comment that has replies -/

/-- Counterexample to C2 as stated: comment 1 has a reply (comment 2, whose
`parent_id` is 1, living on video `h2`), yet `del_comment 1` by its author
SUCCEEDS — the store is mutated (comment 1 removed) and `del_comment` is
broadcast to the room — because the children check scans only the comments
of comment 1's own video. -/
theorem C2_counterexample :
    stCross.db.comments.any (fun c => c.parent_id == some 1) = true ∧
    del_comment stCross "s1" 1 =
      ({ stCross with db := DB.del_comment stCross.db 1 }, [Emit.delComment "h1" 1]) ∧
    (del_comment stCross "s1" 1).1.db.comments.all (fun c => !(c.id == 1)) = true := by
  refine ⟨by decide, by decide, by decide⟩

/-- C2 as amended: for a comment that has a reply ON THE SAME VIDEO, any
`del_comment` request fails before any mutation or broadcast: the state is
returned unchanged and the only output is an error notification pushed to
the requesting identity (the children check scans only the comments of the
target's own `video_hash`, so a cross-video reply — reachable via the C1
hole — does not protect it). -/
theorem C2_amended_del_comment_same_video_reply_fails
    (st : ServerState) (sid : String) (cid : Nat) (uid uname : String) (old child : Comment)
    (hsess : lookupA st.sessions sid = some (uid, uname))
    (huid : uid ≠ "") (hun : uname ≠ "")
    (hold : DB.get_comment st.db cid = some old)
    (hchild : child ∈ st.db.comments)
    (hcp : child.parent_id = some cid)
    (hcv : child.video_hash = old.video_hash) :
    (del_comment st sid cid).1 = st ∧
    (∃ d, del_comment st sid cid =
      (st, deliver st { event_name := "error", user_id := uid, ref_comment_id := some cid,
                        message := "Failed to delete comment.", details := d })) ∧
    (∀ e ∈ (del_comment st sid cid).2, e.isMessage = true) := by
  have hany : (DB.get_video_comments st.db old.video_hash).any
      (fun c => c.parent_id == some cid) = true := by
    refine List.any_eq_true.mpr ⟨child, ?_, by simp [hcp]⟩
    simp [DB.get_video_comments, List.mem_filter, hchild, hcv]
  by_cases hauth : uid = old.user_id ∨ uid = "admin"
  · have hres : del_comment st sid cid =
        (st, deliver st { event_name := "error", user_id := uid, ref_comment_id := some cid,
                          message := "Failed to delete comment.",
                          details := "Can\x27t delete a comment that has replies" }) := by
      simp [del_comment, getUser, hsess, huid, hun, hold, hauth, hany, pushOk_no_persist]
    refine ⟨by rw [hres], ⟨_, hres⟩, by rw [hres]; exact deliver_isMessage _ _⟩
  · have hres : del_comment st sid cid =
        (st, deliver st { event_name := "error", user_id := uid, ref_comment_id := some cid,
                          message := "Failed to delete comment.",
                          details := "You can only delete your own comments" }) := by
      simp [del_comment, getUser, hsess, huid, hun, hold, hauth, pushOk_no_persist]
    refine ⟨by rw [hres], ⟨_, hres⟩, by rw [hres]; exact deliver_isMessage _ _⟩

/-- Witness for C2's amended theorem: with a same-video reply present, the
author's `del_comment` leaves the state unchanged. -/
theorem C2_witness :
    lookupA stReply.sessions "s1" = some ("alice", "Alice") ∧
    DB.get_comment stReply.db 1 = some cRoot ∧
    cReply ∈ stReply.db.comments ∧ cReply.parent_id = some 1 ∧
    cReply.video_hash = cRoot.video_hash ∧
    (del_comment stReply "s1" 1).1 = stReply :=
  ⟨by decide, by decide, by decide, rfl, rfl,
   (C2_amended_del_comment_same_video_reply_fails stReply "s1" 1 "alice" "Alice" cRoot cReply
     (by decide) (by decide) (by decide) (by decide) (by decide) rfl rfl).1⟩

/-! ## C5 — `open_video` snapshot ordering -/

/-- C5: for an existing video, `open_video` joins the caller to the video's
room and emits, to the caller only, exactly one `open_video` descriptor
event followed by one `new_comment` event per stored comment in storage
order, with nothing else interleaved; the store is not mutated. -/
theorem C5_open_video_snapshot
    (st : ServerState) (sid h : String) (v : Video)
    (hv : DB.get_video st.db h = some v) :
    open_video st sid h =
      ({ st with rooms := joinRoom st.rooms sid h },
       Emit.openVideo sid (dict_for_video st v) ::
         (DB.get_video_comments st.db h).map (fun c => emitNewComment st.fs st.videos_dir c sid)) ∧
    (sid, h) ∈ (open_video st sid h).1.rooms ∧
    (open_video st sid h).1.db = st.db ∧
    (∀ e ∈ (DB.get_video_comments st.db h).map (fun c => emitNewComment st.fs st.videos_dir c sid),
      ∃ d, e = Emit.newComment sid d) := by
  have heq : open_video st sid h =
      ({ st with rooms := joinRoom st.rooms sid h },
       Emit.openVideo sid (dict_for_video st v) ::
         (DB.get_video_comments st.db h).map (fun c => emitNewComment st.fs st.videos_dir c sid)) := by
    simp [open_video, hv]
  have hmem : (sid, h) ∈ joinRoom st.rooms sid h := by
    unfold joinRoom
    by_cases hin : (sid, h) ∈ st.rooms <;> simp [hin]
  refine ⟨heq, by rw [heq]; exact hmem, by rw [heq], ?_⟩
  intro e he
  rcases List.mem_map.mp he with ⟨c, _, rfl⟩
  obtain ⟨d, hd, _, _⟩ := emitNewComment_shape st.fs st.videos_dir c sid
  exact ⟨d, hd⟩

/-- Witness for C5: a video with two stored comments is replayed as the
descriptor followed by the two comments in storage order. -/
theorem C5_witness :
    DB.get_video stReply.db "h1" = some vidH1 ∧
    (open_video stReply "s1" "h1").2 =
      [Emit.openVideo "s1" (dict_for_video stReply vidH1),
       Emit.newComment "s1" cRoot.toData, Emit.newComment "s1" cReply.toData] ∧
    ("s1", "h1") ∈ (open_video stReply "s1" "h1").1.rooms := by
  have h := C5_open_video_snapshot stReply "s1" "h1" vidH1 (by decide)
  exact ⟨by decide, by rw [h.1]; rfl, h.2.1⟩

/-! ## C6 — `edit_comment` delete-then-recreate -/

/-- Editing a comment's text commutes with fetching it: the re-fetch after
`edit_comment` returns the old row with only the text replaced. -/
theorem find?_edit_comment (l : List Comment) (i : Nat) (t : String) (old : Comment)
    (h : l.find? (fun c => c.id == i) = some old) :
    (l.map (fun c => if c.id == i then { c with comment := t } else c)).find?
      (fun c => c.id == i) = some { old with comment := t } := by
  induction l with
  | nil => simp [List.find?] at h
  | cons a l ih =>
    simp only [List.find?, List.map_cons] at h ⊢
    by_cases ha : (a.id == i) = true
    · simp [ha] at h ⊢
      simp [h]
    · simp [ha] at h ⊢
      simpa using ih h

/-- Counterexample to C6 as stated: when the edited comment references a
stored drawing whose blob is missing, the room observes `del_comment` then
`new_comment` — but the `new_comment` payload's text is NOT the updated
text: the broadcaster appends the missing-drawing marker. -/
theorem C6_counterexample :
    (edit_comment stDrawn "s1" 7 "new").2 =
      [Emit.delComment "h1" 7,
       Emit.newComment "h1"
         { id := 7, video_hash := "h1", parent_id := none, user_id := "alice",
           username := "Alice", comment := "new [DRAWING NOT FOUND]", timecode := "1:02",
           drawing := some "0123456789abcdef.webp" }] ∧
    ("new [DRAWING NOT FOUND]" : String) ≠ "new" := by
  refine ⟨by decide, by decide⟩

/-- C6 as amended: an author/admin edit updates the stored text and is
observed by the video's room as exactly one `del_comment` carrying the
comment's id followed by exactly one `new_comment` carrying the same id and
the updated text — with the ` [DRAWING NOT FOUND]` marker appended to the
text when the comment references a stored drawing blob that is missing; any
other caller causes no mutation and no room broadcast (only an error
notification pushed to the requester). -/
theorem C6_amended_edit_comment
    (st : ServerState) (sid : String) (cid : Nat) (newText : String)
    (uid uname : String) (old : Comment)
    (hsess : lookupA st.sessions sid = some (uid, uname))
    (huid : uid ≠ "") (hun : uname ≠ "")
    (hold : DB.get_comment st.db cid = some old) :
    ((uid = old.user_id ∨ uid = "admin") →
      edit_comment st sid cid newText =
        ({ st with db := DB.edit_comment st.db cid newText },
         [Emit.delComment old.video_hash cid,
          emitNewComment st.fs st.videos_dir { old with comment := newText } old.video_hash]) ∧
      DB.get_comment (DB.edit_comment st.db cid newText) cid = some { old with comment := newText } ∧
      (∃ d : CommentData,
        emitNewComment st.fs st.videos_dir { old with comment := newText } old.video_hash =
          Emit.newComment old.video_hash d ∧ d.id = old.id ∧
        (d.comment = newText ∨ d.comment = newText ++ " [DRAWING NOT FOUND]"))) ∧
    (¬(uid = old.user_id ∨ uid = "admin") →
      edit_comment st sid cid newText =
        (st, deliver st { event_name := "error", user_id := uid, ref_comment_id := some cid,
                          message := "Failed to edit comment.",
                          details := "You can only edit your own comments" }) ∧
      (∀ e ∈ (edit_comment st sid cid newText).2, e.isMessage = true)) := by
  have hre : DB.get_comment (DB.edit_comment st.db cid newText) cid =
      some { old with comment := newText } := by
    unfold DB.get_comment at hold
    unfold DB.get_comment DB.edit_comment
    exact find?_edit_comment _ _ _ _ hold
  constructor
  · intro hauth
    have heq : edit_comment st sid cid newText =
        ({ st with db := DB.edit_comment st.db cid newText },
         [Emit.delComment old.video_hash cid,
          emitNewComment st.fs st.videos_dir { old with comment := newText } old.video_hash]) := by
      simp [edit_comment, getUser, hsess, huid, hun, hold, hauth, hre]
    refine ⟨heq, hre, ?_⟩
    obtain ⟨d, hd, hid, hc⟩ :=
      emitNewComment_shape st.fs st.videos_dir { old with comment := newText } old.video_hash
    exact ⟨d, hd, by simpa using hid, by simpa using hc⟩
  · intro hauth
    have heq : edit_comment st sid cid newText =
        (st, deliver st { event_name := "error", user_id := uid, ref_comment_id := some cid,
                          message := "Failed to edit comment.",
                          details := "You can only edit your own comments" }) := by
      simp [edit_comment, getUser, hsess, huid, hun, hold, hauth, pushOk_no_persist]
    exact ⟨heq, by rw [heq]; exact deliver_isMessage _ _⟩

/-- Witness for C6's amended theorem: the author edits comment 7; the stored
text is updated. -/
theorem C6_witness :
    lookupA stDrawn.sessions "s1" = some ("alice", "Alice") ∧
    DB.get_comment stDrawn.db 7 = some cDrawn ∧
    ("alice" = cDrawn.user_id ∨ ("alice" : String) = "admin") ∧
    DB.get_comment (DB.edit_comment stDrawn.db 7 "new") 7 = some { cDrawn with comment := "new" } :=
  ⟨by decide, by decide, Or.inl rfl,
   ((C6_amended_edit_comment stDrawn "s1" 7 "new" "alice" "Alice" cDrawn
      (by decide) (by decide) (by decide) (by decide)).1 (Or.inl rfl)).2.1⟩

/-! ## C4 — `seen` is flipped only by the listing path -/

theorem allSeenWithId_set_self (db : DB) (i : Nat) :
    allSeenWithId (DB.set_message_seen db i true) i := by
  intro x hx hxi
  simp only [DB.set_message_seen, List.mem_map] at hx
  rcases hx with ⟨y, _, rfl⟩
  by_cases hyi : (y.id == i) = true
  · simp [hyi]
  · simp [hyi] at hxi ⊢
    exact absurd hxi (by simpa using hyi)

theorem allSeenWithId_set_preserve (db : DB) (i j : Nat) (h : allSeenWithId db i) :
    allSeenWithId (DB.set_message_seen db j true) i := by
  intro x hx hxi
  simp only [DB.set_message_seen, List.mem_map] at hx
  rcases hx with ⟨y, hy, rfl⟩
  by_cases hyj : (y.id == j) = true
  · simp [hyj]
  · simp [hyj] at hxi ⊢
    exact h y hy hxi

theorem foldl_listStep_evs (sid : String) (msgs : List Message) :
    ∀ acc : DB × List Emit,
      (msgs.foldl (listStep sid) acc).2 = acc.2 ++ msgs.map (fun m => Emit.message sid m) := by
  induction msgs with
  | nil => intro acc; simp
  | cons m t ih =>
      intro acc
      simp only [List.foldl_cons, List.map_cons]
      rw [ih]
      simp [listStep]

theorem allSeenWithId_foldl_preserve (sid : String) (i : Nat) (msgs : List Message) :
    ∀ acc : DB × List Emit,
      allSeenWithId acc.1 i → allSeenWithId (msgs.foldl (listStep sid) acc).1 i := by
  induction msgs with
  | nil => intro acc h; simpa using h
  | cons m t ih =>
      intro acc h
      simp only [List.foldl_cons]
      refine ih _ ?_
      unfold listStep
      by_cases hm : m.seen
      · simpa [hm] using h
      · simpa [hm] using allSeenWithId_set_preserve acc.1 i m.id h

theorem allSeenWithId_foldl_establish (sid : String) (M : Message) (hMs : M.seen = false) :
    ∀ (msgs : List Message) (acc : DB × List Emit), M ∈ msgs →
      allSeenWithId (msgs.foldl (listStep sid) acc).1 M.id := by
  intro msgs
  induction msgs with
  | nil => intro acc h; simp at h
  | cons m t ih =>
      intro acc hM
      simp only [List.foldl_cons]
      rcases List.mem_cons.mp hM with rfl | hMt
      · apply allSeenWithId_foldl_preserve
        have hstep : (listStep sid acc M).1 = DB.set_message_seen acc.1 M.id true := by
          simp [listStep, hMs]
        rw [hstep]
        exact allSeenWithId_set_self _ _
      · exact ih _ hMt

/-- C4: the push operation never flips a notification's `seen` flag (it can
only append a row carrying the caller's flag, and never touches existing
rows); `seen` becomes true only through the `list_my_messages` path. A
notification pushed with `persist = true` to an offline identity is
persisted but not delivered live; after the identity reconnects, the next
`list_my_messages` emits its still-unseen snapshot and marks every copy of
it seen, so the listing after that can only emit it as seen. -/
theorem C4_seen_only_via_listing :
    (∀ (stA : ServerState) (mA : Message) (dt p pf ef : Bool)
        (stA' : ServerState) (evs : List Emit),
        push_message stA mA dt p pf ef = Except.ok (stA', evs) →
        stA'.db.messages = stA.db.messages ∨
          stA'.db.messages = stA.db.messages ++ [{ mA with id := stA.db.nextMessageId }]) ∧
    (∀ (st : ServerState) (m : Message) (uname sid2 : String)
        (hdrs : List (String × String)) (dt : Bool),
        lookupA st.userid_to_sid m.user_id = none →
        m.seen = false →
        user_from_headers hdrs = (m.user_id, uname) →
        m.user_id ≠ "" →
        push_message st m dt true false false =
          Except.ok ({ st with db := (DB.add_message st.db m).1 }, []) ∧
        ({ m with id := st.db.nextMessageId } ∈ (DB.add_message st.db m).1.messages ∧
          ({ m with id := st.db.nextMessageId } : Message).seen = false) ∧
        Emit.message sid2 { m with id := st.db.nextMessageId } ∈
          (list_my_messages (connect { st with db := (DB.add_message st.db m).1 } sid2 hdrs).1 sid2).2 ∧
        allSeenWithId
          (list_my_messages (connect { st with db := (DB.add_message st.db m).1 } sid2 hdrs).1 sid2).1.db
          st.db.nextMessageId ∧
        (∀ x : Message,
          Emit.message sid2 x ∈
            (list_my_messages
              (list_my_messages (connect { st with db := (DB.add_message st.db m).1 } sid2 hdrs).1 sid2).1
              sid2).2 →
          x.id = st.db.nextMessageId → x.seen = true)) := by
  constructor
  · intro stA mA dt p pf ef stA' evs hok
    cases p with
    | false =>
        cases hlk : lookupA stA.userid_to_sid mA.user_id with
        | none =>
            simp [push_message, hlk] at hok
            left; rw [hok.1]
        | some sid =>
            cases ef <;> cases dt <;> simp [push_message, hlk] at hok <;> (left; rw [hok.1])
    | true =>
        cases pf with
        | true =>
            cases dt with
            | false => simp [push_message] at hok
            | true =>
                cases hlk : lookupA stA.userid_to_sid mA.user_id with
                | none =>
                    simp [push_message, hlk] at hok
                    left; rw [hok.1]
                | some sid =>
                    cases ef <;> simp [push_message, hlk] at hok <;> (left; rw [hok.1])
        | false =>
            cases hlk : lookupA stA.userid_to_sid ({ mA with id := stA.db.nextMessageId } : Message).user_id with
            | none =>
                simp [push_message, DB.add_message, hlk] at hok
                right; rw [← hok.1]
            | some sid =>
                cases ef <;> cases dt <;> simp [push_message, DB.add_message, hlk] at hok <;>
                  (right; rw [← hok.1])
  · intro st m uname sid2 hdrs dt hoff hseen hhdr hne
    have hpush : push_message st m dt true false false =
        Except.ok ({ st with db := (DB.add_message st.db m).1 }, []) := by
      simp [push_message, DB.add_message, hoff]
    have hsess2 : lookupA (connect { st with db := (DB.add_message st.db m).1 } sid2 hdrs).1.sessions sid2 =
        some (m.user_id, uname) := by
      simp only [connect, hhdr]
      exact lookupA_insertA_self _ _ _
    have hdb2 : (connect { st with db := (DB.add_message st.db m).1 } sid2 hdrs).1.db =
        (DB.add_message st.db m).1 := by
      simp [connect, hhdr]
    have hMmem : ({ m with id := st.db.nextMessageId } : Message) ∈
        DB.get_user_messages (DB.add_message st.db m).1 m.user_id := by
      refine List.mem_filter.mpr ⟨?_, by simp⟩
      simp [DB.add_message]
    have hlist1 : list_my_messages (connect { st with db := (DB.add_message st.db m).1 } sid2 hdrs).1 sid2 =
        ({ (connect { st with db := (DB.add_message st.db m).1 } sid2 hdrs).1 with db :=
            ((DB.get_user_messages (DB.add_message st.db m).1 m.user_id).foldl (listStep sid2)
              ((DB.add_message st.db m).1, [])).1 },
         ((DB.get_user_messages (DB.add_message st.db m).1 m.user_id).foldl (listStep sid2)
              ((DB.add_message st.db m).1, [])).2) := by
      simp [list_my_messages, getUser, hsess2, hne, hdb2]
    refine ⟨hpush, ⟨by simp [DB.add_message], hseen⟩, ?_, ?_, ?_⟩
    · rw [hlist1]
      rw [foldl_listStep_evs]
      simp only [List.nil_append]
      exact List.mem_map.mpr ⟨_, hMmem, rfl⟩
    · rw [hlist1]
      exact allSeenWithId_foldl_establish sid2 { m with id := st.db.nextMessageId } hseen _ _ hMmem
    · intro x hx hxi
      rw [hlist1] at hx
      have hsess3 : lookupA ({ (connect { st with db := (DB.add_message st.db m).1 } sid2 hdrs).1 with db :=
          ((DB.get_user_messages (DB.add_message st.db m).1 m.user_id).foldl (listStep sid2)
            ((DB.add_message st.db m).1, [])).1 }).sessions sid2 = some (m.user_id, uname) := hsess2
      have hall : allSeenWithId
          ((DB.get_user_messages (DB.add_message st.db m).1 m.user_id).foldl (listStep sid2)
            ((DB.add_message st.db m).1, [])).1 st.db.nextMessageId :=
        allSeenWithId_foldl_establish sid2 { m with id := st.db.nextMessageId } hseen _ _ hMmem
      simp only [list_my_messages, getUser, hsess3, hne, Option.getD_some, if_neg hne] at hx
      rw [foldl_listStep_evs] at hx
      simp only [List.nil_append] at hx
      rcases List.mem_map.mp hx with ⟨y, hy, hxy⟩
      have hxeq : y = x := by
        injection hxy
      subst hxeq
      have hymem := (List.mem_filter.mp hy).1
      exact hall _ hymem hxi

/-- Witness for C4: `bob` is offline in `stAlice`; a persisted push stores
the notification without delivering it, and after `bob` connects as `s2` the
next listing emits its still-unseen snapshot. -/
theorem C4_witness :
    lookupA stAlice.userid_to_sid "bob" = none ∧
    msgBob.seen = false ∧
    user_from_headers hdrsBob = ("bob", "Bob") ∧
    ("bob" : String) ≠ "" ∧
    push_message stAlice msgBob false true false false =
      Except.ok ({ stAlice with db := (DB.add_message stAlice.db msgBob).1 }, []) ∧
    Emit.message "s2" { msgBob with id := 1 } ∈
      (list_my_messages
        (connect { stAlice with db := (DB.add_message stAlice.db msgBob).1 } "s2" hdrsBob).1 "s2").2 := by
  have h := C4_seen_only_via_listing.2 stAlice msgBob "Bob" "s2" hdrsBob false
    (by decide) rfl (by decide) (by decide)
  exact ⟨by decide, rfl, by decide, by decide, h.1, h.2.2.1⟩

/-! ## C9 — content-addressed drawing storage -/

/-- `add_comment` with a valid `image/webp` data-URI drawing: the decoded
bytes are written to `videos_dir/<hash>/drawings/<sha256[:16]>.webp` and the
stored row references that filename. -/
theorem add_comment_webp_eq
    (st : ServerState) (sid uid uname : String) (msg : AddCommentMsg) (s : String) (B : List Nat)
    (hsess : lookupA st.sessions sid = some (uid, uname))
    (huid : uid ≠ "") (hun : uname ≠ "")
    (hvid : (DB.get_video st.db msg.video_hash).isSome = true)
    (hd : msg.drawing = some s) (hne : ¬(s = "")) (hsw : strStartsWith s "data:" = true)
    (hp : parseDataURI s = some ("image/webp", B)) :
    add_comment st sid msg =
      ({ st with
          db := { st.db with
            comments := st.db.comments ++
              [{ id := st.db.nextCommentId, video_hash := msg.video_hash,
                 parent_id := orNoneNat msg.parent_id, user_id := uid, username := uname,
                 comment := orDefault msg.comment "", timecode := orDefault msg.timecode "",
                 drawing := some (strTakeN (sha256Hex B) 16 ++ "." ++ "webp") }],
            nextCommentId := st.db.nextCommentId + 1 },
          fs := (st.fs.mkdirp (st.videos_dir ++ "/" ++ msg.video_hash ++ "/drawings")).write
            (st.videos_dir ++ "/" ++ msg.video_hash ++ "/drawings" ++ "/" ++
              (strTakeN (sha256Hex B) 16 ++ "." ++ "webp")) B },
       [emitNewComment
          ((st.fs.mkdirp (st.videos_dir ++ "/" ++ msg.video_hash ++ "/drawings")).write
            (st.videos_dir ++ "/" ++ msg.video_hash ++ "/drawings" ++ "/" ++
              (strTakeN (sha256Hex B) 16 ++ "." ++ "webp")) B)
          st.videos_dir
          { id := st.db.nextCommentId, video_hash := msg.video_hash,
            parent_id := orNoneNat msg.parent_id, user_id := uid, username := uname,
            comment := orDefault msg.comment "", timecode := orDefault msg.timecode "",
            drawing := some (strTakeN (sha256Hex B) 16 ++ "." ++ "webp") } msg.video_hash]) := by
  obtain ⟨v, hv⟩ := Option.isSome_iff_exists.mp hvid
  have hext : (splitOnChar (Char.ofNat 47) "image/webp")[1]?.getD "" = "webp" := rfl
  simp [add_comment, getUser, hsess, huid, hun, hv, hd, hne, hsw, hp, hext, DB.add_comment]

/-- C9: a drawing submitted as a data URI carrying raw bytes `B` of the
accepted `image/webp` media type is stored under
`videos_dir/<video_hash>/drawings/` with filename
`sha256(B)[:16] + "." + "webp"`, and the stored comment row references that
filename; a second submission of the identical bytes `B` (under any data-URI
spelling) yields the identical filename, overwriting the same single
content-addressed file. -/
theorem C9_drawing_content_addressed
    (st : ServerState) (sid uid uname : String) (msg msg2 : AddCommentMsg)
    (s s2 : String) (B : List Nat)
    (hsess : lookupA st.sessions sid = some (uid, uname))
    (huid : uid ≠ "") (hun : uname ≠ "")
    (hvid : (DB.get_video st.db msg.video_hash).isSome = true)
    (hd : msg.drawing = some s) (hne : ¬(s = "")) (hsw : strStartsWith s "data:" = true)
    (hp : parseDataURI s = some ("image/webp", B))
    (hv2 : msg2.video_hash = msg.video_hash)
    (hd2 : msg2.drawing = some s2) (hne2 : ¬(s2 = "")) (hsw2 : strStartsWith s2 "data:" = true)
    (hp2 : parseDataURI s2 = some ("image/webp", B)) :
    (∃ c1 : Comment,
      (add_comment st sid msg).1.db.comments = st.db.comments ++ [c1] ∧
      c1.drawing = some (strTakeN (sha256Hex B) 16 ++ "." ++ "webp")) ∧
    lookupA (add_comment st sid msg).1.fs.files
      (st.videos_dir ++ "/" ++ msg.video_hash ++ "/drawings" ++ "/" ++
        (strTakeN (sha256Hex B) 16 ++ "." ++ "webp")) = some B ∧
    (∃ c2 : Comment,
      (add_comment (add_comment st sid msg).1 sid msg2).1.db.comments =
        (add_comment st sid msg).1.db.comments ++ [c2] ∧
      c2.drawing = some (strTakeN (sha256Hex B) 16 ++ "." ++ "webp")) ∧
    lookupA (add_comment (add_comment st sid msg).1 sid msg2).1.fs.files
      (st.videos_dir ++ "/" ++ msg.video_hash ++ "/drawings" ++ "/" ++
        (strTakeN (sha256Hex B) 16 ++ "." ++ "webp")) = some B := by
  have h1 := add_comment_webp_eq st sid uid uname msg s B hsess huid hun hvid hd hne hsw hp
  have hsess1 : lookupA (add_comment st sid msg).1.sessions sid = some (uid, uname) := by
    rw [h1]; exact hsess
  have hvid1 : (DB.get_video (add_comment st sid msg).1.db msg2.video_hash).isSome = true := by
    rw [h1, hv2]; exact hvid
  have h2 := add_comment_webp_eq (add_comment st sid msg).1 sid uid uname msg2 s2 B
    hsess1 huid hun hvid1 hd2 hne2 hsw2 hp2
  refine ⟨⟨_, by rw [h1], rfl⟩, ?_, ⟨_, by rw [h2], rfl⟩, ?_⟩
  · rw [h1]
    exact lookupA_insertA_self _ _ _
  · rw [h2, h1, hv2]
    exact lookupA_insertA_self _ _ _

/-- Witness for C9: both submissions of bytes `[1,2,3]` store the blob under
the single content-addressed path. -/
theorem C9_witness :
    parseDataURI "data:image/webp;base64,AQID" = some ("image/webp", [1, 2, 3]) ∧
    parseDataURI "data:image/webp;charset=utf-8;base64,AQID" = some ("image/webp", [1, 2, 3]) ∧
    lookupA (add_comment stAlice "s1" msgDraw1).1.fs.files
      (stAlice.videos_dir ++ "/" ++ msgDraw1.video_hash ++ "/drawings" ++ "/" ++
        (strTakeN (sha256Hex [1, 2, 3]) 16 ++ "." ++ "webp")) = some [1, 2, 3] ∧
    lookupA (add_comment (add_comment stAlice "s1" msgDraw1).1 "s1" msgDraw2).1.fs.files
      (stAlice.videos_dir ++ "/" ++ msgDraw1.video_hash ++ "/drawings" ++ "/" ++
        (strTakeN (sha256Hex [1, 2, 3]) 16 ++ "." ++ "webp")) = some [1, 2, 3] := by
  have h := C9_drawing_content_addressed stAlice "s1" "alice" "Alice" msgDraw1 msgDraw2
    "data:image/webp;base64,AQID" "data:image/webp;charset=utf-8;base64,AQID" [1, 2, 3]
    (by decide) (by decide) (by decide) (by decide) rfl (by decide) (by decide) (by decide)
    rfl rfl (by decide) (by decide) (by decide)
  exact ⟨by decide, by decide, h.2.1, h.2.2.2⟩

/-! ## Sanity: the hash and encoding embeddings match their standards -/

set_option maxRecDepth 10000 in
/-- The SHA-256 embedding reproduces the FIPS 180-4 test vector for the
empty message. -/
theorem sha256Hex_matches_empty_vector :
    sha256Hex [] = "e3b0c44298fc1c149afbf4c8996fb92427ae41e4649b934ca495991b7852b855" := by
  decide

set_option maxRecDepth 10000 in
/-- The SHA-256 embedding reproduces the FIPS 180-4 test vector for
`"abc"`. -/
theorem sha256Hex_matches_abc_vector :
    sha256Hex (strToBytes "abc") =
      "ba7816bf8f01cfea414140de5dae2223b00361a396177a9cb410ff61f20015ad" := by
  decide

/-- The base64 embedding reproduces the RFC 4648 test vectors. -/
theorem base64_matches_vectors :
    base64Encode (strToBytes "foob") = "Zm9vYg==" ∧
    base64Encode (strToBytes "fooba") = "Zm9vYmE=" ∧
    base64Encode (strToBytes "foobar") = "Zm9vYmFy" ∧
    base64Decode "Zm9vYmFy" = some (strToBytes "foobar") := by
  refine ⟨by decide, by decide, by decide, by decide⟩
